import Mathlib

/-!
Verification of the node-vad streaming voice-activity-detection module
(`index.js`): the sample converters, the `VAD` option validation, and the
`VADStream` transform stream (frame chunking across writes and the speech
state machine).

Modelling conventions: byte buffers are `List ℕ`; JavaScript numbers that
only ever undergo exact arithmetic or comparison here are modelled as
rationals; the asynchronous native classifier is an opaque deterministic
function `cls : List ℕ → Event`; a thrown error / rejected promise is an
`Except.error`.
-/

/-- Classification results returned by the native binding
(`VAD.Event = \x7b ERROR: -1, SILENCE: 0, VOICE: 1, NOISE: 2 \x7d`). -/
inductive Event where
  | ERROR
  | SILENCE
  | VOICE
  | NOISE
deriving DecidableEq

/-- A JavaScript runtime value, as far as the option validation in the
`VAD` and `VADStream` constructors inspects one: a finite number (modelled
as a rational), the number `NaN` (of `number` type, but with every
relational comparison and strict equality against a number false), or a
value that is not of `number` type. -/
inductive JSVal where
  | num (q : ℚ)
  | nan
  | other
deriving DecidableEq

/-- `typeof v === 'number'` (`NaN` is of number type). -/
def JSVal.isNumber : JSVal → Bool
  | .num _ => true
  | .nan => true
  | .other => false

/-- Strict equality `v === q` against a number literal (`NaN === q` is
false).  Only reached by the source after a `typeof` check, so the
`other` case is never exercised on the code paths modelled here. -/
def JSVal.eqNum (v : JSVal) (q : ℚ) : Bool :=
  match v with
  | .num x => decide (x = q)
  | _ => false

/-- `v >= q` (false for `NaN`). -/
def JSVal.geNum (v : JSVal) (q : ℚ) : Bool :=
  match v with
  | .num x => decide (q ≤ x)
  | _ => false

/-- `v <= q` (false for `NaN`). -/
def JSVal.leNum (v : JSVal) (q : ℚ) : Bool :=
  match v with
  | .num x => decide (x ≤ q)
  | _ => false

/-- `v < q` (false for `NaN`). -/
def JSVal.ltNum (v : JSVal) (q : ℚ) : Bool :=
  match v with
  | .num x => decide (x < q)
  | _ => false

/-- `VAD.Mode.NORMAL` (the frozen `VAD.Mode` table, line 246). -/
def Mode.NORMAL : ℚ := 0

/-- `VAD.Mode.LOW_BITRATE`. -/
def Mode.LOW_BITRATE : ℚ := 1

/-- `VAD.Mode.AGGRESSIVE`. -/
def Mode.AGGRESSIVE : ℚ := 2

/-- `VAD.Mode.VERY_AGGRESSIVE`. -/
def Mode.VERY_AGGRESSIVE : ℚ := 3

/-- The `VAD` constructor's validation (lines 49–72): it throws
`Invalid mode` unless `typeof mode === 'number'` and
`mode >= VAD.Mode.NORMAL && mode <= VAD.Mode.VERY_AGGRESSIVE`.
The native allocation/initialisation calls (`vad_alloc`, `vad_init`) are
assumed to succeed; their failures depend on the external binding, not on
the configuration. -/
def VAD.construct (mode : JSVal) : Except String Unit :=
  if !mode.isNumber || !(mode.geNum Mode.NORMAL && mode.leNum Mode.VERY_AGGRESSIVE) then
    .error "Invalid mode"
  else
    .ok ()

/-- The `VADStream` constructor's option validation (lines 122–158), in
source order: the `VAD` mode check runs first (`new VAD(mode)`), then the
`audioFrequency` type check, then its membership in
\x7b8000, 16000, 32000, 48000\x7d, then the `debounceTime` type check, then
`debounceTime < 0`. -/
def VADStream.construct (mode audioFrequency debounceTime : JSVal) :
    Except String Unit :=
  match VAD.construct mode with
  | .error e => .error e
  | .ok _ =>
    if !audioFrequency.isNumber then
      .error "audioFrequency must be a number"
    else if !(audioFrequency.eqNum 8000 || audioFrequency.eqNum 16000 ||
        audioFrequency.eqNum 32000 || audioFrequency.eqNum 48000) then
      .error "audioFrequency must be 8000, 16000, 32000 or 48000"
    else if !debounceTime.isNumber then
      .error "debounceTime must be a number"
    else if debounceTime.ltNum 0 then
      .error "debounceTime must be greater than 0"
    else
      .ok ()

/-- The configuration-validity predicate exactly as the specification
words it (for comparison with `VADStream.construct`): `mode` one of the
four enumerated mode values, `sampleRate` in the allowed set, and
`debounceTime` a non-negative number. -/
def specValidConfig (mode audioFrequency debounceTime : JSVal) : Prop :=
  (mode = .num Mode.NORMAL ∨ mode = .num Mode.LOW_BITRATE ∨
    mode = .num Mode.AGGRESSIVE ∨ mode = .num Mode.VERY_AGGRESSIVE) ∧
  (audioFrequency = .num 8000 ∨ audioFrequency = .num 16000 ∨
    audioFrequency = .num 32000 ∨ audioFrequency = .num 48000) ∧
  (∃ d : ℚ, debounceTime = .num d ∧ 0 ≤ d)

/-- The set of configurations `VADStream.construct` actually accepts:
any value of number type with `0 ≤ mode ≤ 3` (fractional values
included), `audioFrequency` strictly equal to one of the four rates, and
a `debounceTime` of number type that is not `< 0` (so `NaN` is also
accepted, every comparison on it being false). -/
def acceptedConfig (mode audioFrequency debounceTime : JSVal) : Bool :=
  (match mode with
    | .num m => decide (0 ≤ m ∧ m ≤ 3)
    | _ => false) &&
  (match audioFrequency with
    | .num f => decide (f = 8000 ∨ f = 16000 ∨ f = 32000 ∨ f = 48000)
    | _ => false) &&
  (match debounceTime with
    | .num d => decide (0 ≤ d)
    | .nan => true
    | .other => false)

/-- `buffer.readInt16LE`: little-endian signed 16-bit read of two bytes. -/
def readInt16LE (b0 b1 : ℕ) : ℤ :=
  if (b0 : ℤ) + 256 * b1 < 32768 then (b0 : ℤ) + 256 * b1
  else (b0 : ℤ) + 256 * b1 - 65536

/-- `VAD.from16toFloatBuffer` (lines 99–108).  The IEEE-754
single-precision little-endian encoding performed by `writeFloatLE` is a
parameter (it always yields the 4 bytes of the encoded float in Node).
The loop reads the signed 16-bit sample at offset `i` (a `RangeError`,
modelled as `.error`, if only one byte remains), and writes the float
`intValue / 32768` at offset `2·i`, so with 4-byte float writes the
`2·length`-byte output consists of the consecutively encoded samples. -/
def VAD.from16toFloatBuffer (writeFloatLE : ℚ → List ℕ) :
    List ℕ → Except Unit (List ℕ)
  | [] => .ok []
  | b0 :: b1 :: rest =>
    (VAD.from16toFloatBuffer writeFloatLE rest).map
      (fun tail => writeFloatLE ((readInt16LE b0 b1 : ℚ) / 32768) ++ tail)
  | _ => .error ()

/-- `VAD.from32toFloatBuffer` (lines 110–118).  `readFloatLE` followed by
`writeFloatLE` round-trips the four sample bytes unchanged (exact for
every single-precision bit pattern other than a canonicalised NaN
payload), so each loop step copies the 4-byte group read at offset `i` to
offset `4·i` of the zero-initialised output of `Buffer.alloc(length * 4)`;
the 12 bytes between consecutive writes stay zero.  A trailing group of
fewer than 4 bytes makes `readFloatLE` throw a `RangeError` (`.error`). -/
def VAD.from32toFloatBuffer : List ℕ → Except Unit (List ℕ)
  | [] => .ok []
  | b0 :: b1 :: b2 :: b3 :: rest =>
    (VAD.from32toFloatBuffer rest).map
      (fun tail => [b0, b1, b2, b3] ++ List.replicate 12 0 ++ tail)
  | _ => .error ()

/-- `VAD.processAudio` (lines 75–89): dispatch on the `bits` argument with
strict equality `bits === 32`; every other value (the default `16`
included) takes the 16-bit conversion path.  There is no validation of
`bits`.  (The converted buffer is then handed to the asynchronous native
classifier, which is outside this model.) -/
def VAD.processAudio (writeFloatLE : ℚ → List ℕ) (buffer : List ℕ)
    (bits : JSVal) : Except Unit (List ℕ) :=
  if bits = JSVal.num 32 then VAD.from32toFloatBuffer buffer
  else VAD.from16toFloatBuffer writeFloatLE buffer

/-- The `speech` record of a pushed FrameEvent (the `end` field is a Lean
keyword and is rendered `endFlag`). -/
structure Speech where
  state : Bool
  start : Bool
  endFlag : Bool
  startTime : ℚ
  duration : ℚ
deriving DecidableEq

/-- An object pushed by `VADStream._processAudio` (lines 224–234). -/
structure FrameEvent where
  time : ℚ
  audioData : List ℕ
  speech : Speech
deriving DecidableEq

/-- The mutable speech fields of a `VADStream`
(`this.state`, `this.startTime`, `this.lastSpeech`). -/
structure SpeechState where
  state : Bool
  startTime : ℚ
  lastSpeech : ℚ
deriving DecidableEq

/-- The mutable per-stream counters: `this.byteCount` plus the speech
fields. -/
structure VADState where
  byteCount : ℕ
  speech : SpeechState
deriving DecidableEq

/-- The branch block of `_processAudio` (lines 202–222) on the
pre-transition speech fields `s`: returns the local `start`, `end` and
`startTime` variables as pushed, and the post-transition speech fields.
On `VOICE` from a non-speaking state the local `startTime` is freshly
assigned `time`; on a debounced segment end it keeps the pre-reset value
while `this.startTime` is reset to 0. -/
def speechTransition (debounceTime : ℚ) (s : SpeechState) (time : ℚ)
    (event : Event) : Bool × Bool × ℚ × SpeechState :=
  if event = .VOICE then
    if s.state then
      (false, false, s.startTime, { s with lastSpeech := time })
    else
      (true, false, time, ⟨true, time, time⟩)
  else if s.state = true ∧ time - s.lastSpeech > debounceTime then
    (false, true, s.startTime, ⟨false, 0, s.lastSpeech⟩)
  else
    (false, false, s.startTime, s)

/-- `VADStream._processAudio` (lines 193–236) for a single frame `chunk`,
parameterised by `tm = this.timeMultiplier`, `dbt = this.debounceTime`
and the deterministic classifier `cls` standing for
`this.vad.processAudio`.  `time` is read before `byteCount` is advanced;
an `ERROR` classification throws (`.error`) and nothing is pushed;
otherwise the returned `FrameEvent` is the pushed object and the returned
`VADState` holds the mutated fields.  Note that `duration` is computed
from the pre-transition `this.state` and `this.startTime` (line 205, which
runs before the transition block). -/
def VADStream.processAudio (tm dbt : ℚ) (cls : List ℕ → Event)
    (vs : VADState) (chunk : List ℕ) : Except Unit (FrameEvent × VADState) :=
  match cls chunk with
  | .ERROR => .error ()
  | event =>
    .ok
      ({ time := tm * (vs.byteCount : ℚ),
         audioData := chunk,
         speech :=
           { state :=
               (speechTransition dbt vs.speech (tm * (vs.byteCount : ℚ))
                 event).2.2.2.state,
             start :=
               (speechTransition dbt vs.speech (tm * (vs.byteCount : ℚ))
                 event).1,
             endFlag :=
               (speechTransition dbt vs.speech (tm * (vs.byteCount : ℚ))
                 event).2.1,
             startTime :=
               (speechTransition dbt vs.speech (tm * (vs.byteCount : ℚ))
                 event).2.2.1,
             duration :=
               if vs.speech.state then
                 tm * (vs.byteCount : ℚ) - vs.speech.startTime
               else 0 } },
       { byteCount := vs.byteCount + chunk.length,
         speech :=
           (speechTransition dbt vs.speech (tm * (vs.byteCount : ℚ))
             event).2.2.2 })

/-- `VADStream._chunkTransform` (lines 182–191) with the running slice
index eliminated: relative to the not-yet-consumed suffix of the chunk,
the guard `start + this.chunkLength < chunk.length` is
`F < chunk.length`, the slice `chunk.slice(start, end)` is
`chunk.take F`, and the final `chunk.slice(start)` is the whole remaining
suffix.  `F` is `this.chunkLength` (FrameLengthBytes), positive for every
accepted `audioFrequency`.  Returns the pushed events in order, and
either the retained remainder with the final counters, or the error of an
`ERROR` frame, which aborts the recursion. -/
def VADStream.chunkTransform (F : ℕ) (hF : 0 < F) (tm dbt : ℚ)
    (cls : List ℕ → Event) (vs : VADState) (chunk : List ℕ) :
    List FrameEvent × Except Unit (VADState × List ℕ) :=
  if h : F < chunk.length then
    match VADStream.processAudio tm dbt cls vs (chunk.take F) with
    | .error e => ([], .error e)
    | .ok (ev, vs') =>
      (ev :: (VADStream.chunkTransform F hF tm dbt cls vs' (chunk.drop F)).1,
        (VADStream.chunkTransform F hF tm dbt cls vs' (chunk.drop F)).2)
  else
    ([], .ok (vs, chunk))
termination_by chunk.length
decreasing_by
  all_goals simp only [List.length_drop]; omega

/-- The frame-slicing skeleton of `_chunkTransform` (the Frame Chunker of
the design document, independent of classification): the frames sliced
off a chunk, in order, and the retained remainder. -/
def chunkFrames (F : ℕ) (hF : 0 < F) (chunk : List ℕ) :
    List (List ℕ) × List ℕ :=
  if h : F < chunk.length then
    (chunk.take F :: (chunkFrames F hF (chunk.drop F)).1,
      (chunkFrames F hF (chunk.drop F)).2)
  else
    ([], chunk)
termination_by chunk.length
decreasing_by
  all_goals simp only [List.length_drop]; omega

/-- Sequential processing of already-sliced frames: the recursion of
`_chunkTransform` with the slicing factored out.  Stops at the first
`ERROR` frame. -/
def processFrames (tm dbt : ℚ) (cls : List ℕ → Event) (vs : VADState) :
    List (List ℕ) → List FrameEvent × Except Unit VADState
  | [] => ([], .ok vs)
  | f :: fs =>
    match VADStream.processAudio tm dbt cls vs f with
    | .error e => ([], .error e)
    | .ok (ev, vs') =>
      (ev :: (processFrames tm dbt cls vs' fs).1,
        (processFrames tm dbt cls vs' fs).2)

/-- `VADStream._transform` (lines 170–180) for one incoming write:
`Buffer.concat([this.buffer, chunk])` then `_chunkTransform(chunk, 0)`.
On success the returned remainder becomes the new `this.buffer`; on error
`this.buffer` is set to `null` and the error is passed to the stream
callback. -/
def VADStream.transform (F : ℕ) (hF : 0 < F) (tm dbt : ℚ)
    (cls : List ℕ → Event) (st : VADState × List ℕ) (write : List ℕ) :
    List FrameEvent × Except Unit (VADState × List ℕ) :=
  VADStream.chunkTransform F hF tm dbt cls st.1 (st.2 ++ write)

/-- A whole run of the stream on an ordered list of writes: all pushed
events in order, plus the final `(counters, buffer)` state — or `none`
once a write fails, since `callback(error)` destroys the transform stream
(the buffer is discarded, and no later write is processed). -/
def runStream (F : ℕ) (hF : 0 < F) (tm dbt : ℚ) (cls : List ℕ → Event) :
    VADState × List ℕ → List (List ℕ) →
      List FrameEvent × Option (VADState × List ℕ)
  | st, [] => ([], some st)
  | st, w :: ws =>
    match VADStream.transform F hF tm dbt cls st w with
    | (evs, .ok st') =>
      (evs ++ (runStream F hF tm dbt cls st' ws).1,
        (runStream F hF tm dbt cls st' ws).2)
    | (evs, .error _) => (evs, none)

/-- The stream state installed by the `VADStream` constructor
(lines 162–167): `byteCount = 0`, `state = false`, `startTime = 0`,
`lastSpeech = 0`, empty buffer. -/
def initialStream : VADState × List ℕ :=
  ({ byteCount := 0,
     speech := { state := false, startTime := 0, lastSpeech := 0 } }, [])

/-- Claim C2 (code bug): on the 4-byte input `[0, 0, 128, 63]` (the single
little-endian float `1.0`), `from32toFloatBuffer` returns a 16-byte
buffer — 4 float elements (`1.0` followed by three `0.0`s) — instead of
passing the buffer through with an equal element count: the loop
allocates `length * 4` bytes and writes the float read at offset `i` to
offset `4·i`. -/
theorem c2_from32_failing :
    VAD.from32toFloatBuffer [0, 0, 128, 63] =
      .ok [0, 0, 128, 63, 0, 0, 0, 0, 0, 0, 0, 0, 0, 0, 0, 0] ∧
    ([0, 0, 128, 63, 0, 0, 0, 0, 0, 0, 0, 0, 0, 0, 0, 0] : List ℕ).length =
      4 * ([0, 0, 128, 63] : List ℕ).length := by
  constructor <;> rfl

/-- Claim C9: `VAD.processAudio` converts with the 16-bit sample
converter for every `bits` argument other than (strict equality) the
number `32` — the default `16`, unsupported depths such as `8` or `24`,
`NaN` and non-number values included — and never rejects a bit-depth
value. -/
theorem c9_bits_dispatch (writeFloatLE : ℚ → List ℕ) (buffer : List ℕ)
    (bits : JSVal) (h : bits ≠ JSVal.num 32) :
    VAD.processAudio writeFloatLE buffer bits =
      VAD.from16toFloatBuffer writeFloatLE buffer := by
  simp [VAD.processAudio, h]

/-- Witness for `c9_bits_dispatch` at the default `bits = 16`. -/
theorem c9_bits_dispatch_witness :
    (JSVal.num 16 ≠ JSVal.num 32) ∧
    VAD.processAudio (fun _ => [0, 0, 0, 0]) [1, 2] (JSVal.num 16) =
      VAD.from16toFloatBuffer (fun _ => [0, 0, 0, 0]) [1, 2] :=
  ⟨by decide, c9_bits_dispatch _ _ _ (by decide)⟩

/-- Claim C6 (counterexample): the configuration
`mode = 1.5, audioFrequency = 16000, debounceTime = 1000` is accepted by
the constructors — the mode check is the interval test
`mode >= 0 && mode <= 3`, not membership in \x7b0, 1, 2, 3\x7d — although
the claim requires every mode outside that set to be rejected. -/
theorem c6_counterexample :
    VADStream.construct (JSVal.num (3 / 2)) (JSVal.num 16000)
        (JSVal.num 1000) = .ok () ∧
    ¬ specValidConfig (JSVal.num (3 / 2)) (JSVal.num 16000)
        (JSVal.num 1000) := by
  constructor
  · norm_num [VADStream.construct, VAD.construct, JSVal.isNumber,
      JSVal.geNum, JSVal.leNum, JSVal.eqNum, JSVal.ltNum, Mode.NORMAL,
      Mode.VERY_AGGRESSIVE]
  · intro h
    rcases h with ⟨h1, -, -⟩
    rcases h1 with h1 | h1 | h1 | h1 <;>
      (simp only [JSVal.num.injEq, Mode.NORMAL, Mode.LOW_BITRATE,
        Mode.AGGRESSIVE, Mode.VERY_AGGRESSIVE] at h1 ; norm_num at h1)

/-- `VAD.construct` succeeds iff the mode is a number in the interval
`[NORMAL, VERY_AGGRESSIVE] = [0, 3]`. -/
theorem vad_construct_ok_iff (mode : JSVal) :
    VAD.construct mode = .ok () ↔
      (match mode with
        | .num m => decide (0 ≤ m ∧ m ≤ 3)
        | _ => false) = true := by
  cases mode <;>
    simp [VAD.construct, JSVal.isNumber, JSVal.geNum, JSVal.leNum,
      Mode.NORMAL, Mode.VERY_AGGRESSIVE]

/-- Claim C6 (amended): stream construction succeeds iff `mode` is of
number type with `0 ≤ mode ≤ 3` (any such number, fractional values
included), `audioFrequency` is strictly equal to one of
8000, 16000, 32000, 48000, and `debounceTime` is of number type and not
`< 0` (so `debounceTime = 0` and `debounceTime = NaN` are accepted);
every other configuration, wrong value types included, throws. -/
theorem c6_construct_iff_amended (mode audioFrequency debounceTime : JSVal) :
    VADStream.construct mode audioFrequency debounceTime = .ok () ↔
      acceptedConfig mode audioFrequency debounceTime = true := by
  unfold VADStream.construct acceptedConfig
  rcases hv : VAD.construct mode with e | u
  · have hm := (vad_construct_ok_iff mode).not
    rw [hv] at hm
    simp at hm
    simp [hm]
  · obtain ⟨⟩ := u
    have hm := (vad_construct_ok_iff mode).mp hv
    rw [hm]
    cases audioFrequency <;> cases debounceTime <;>
      simp [JSVal.isNumber, JSVal.eqNum, JSVal.ltNum] <;>
    first
    | (split_ifs <;> simp_all [not_lt] <;> try tauto)
    | tauto

/-- Unfolding `_chunkTransform` when at least one more byte than a full
frame remains. -/
theorem chunkTransform_pos (F : ℕ) (hF : 0 < F) (tm dbt : ℚ)
    (cls : List ℕ → Event) (vs : VADState) (chunk : List ℕ)
    (h : F < chunk.length) :
    VADStream.chunkTransform F hF tm dbt cls vs chunk =
      match VADStream.processAudio tm dbt cls vs (chunk.take F) with
      | .error e => ([], .error e)
      | .ok (ev, vs') =>
        (ev :: (VADStream.chunkTransform F hF tm dbt cls vs' (chunk.drop F)).1,
          (VADStream.chunkTransform F hF tm dbt cls vs' (chunk.drop F)).2) := by
  rw [VADStream.chunkTransform]
  simp only [dif_pos h]

/-- Unfolding `_chunkTransform` at its final call: everything remaining
becomes the retained leftover. -/
theorem chunkTransform_neg (F : ℕ) (hF : 0 < F) (tm dbt : ℚ)
    (cls : List ℕ → Event) (vs : VADState) (chunk : List ℕ)
    (h : ¬ F < chunk.length) :
    VADStream.chunkTransform F hF tm dbt cls vs chunk = ([], .ok (vs, chunk)) := by
  rw [VADStream.chunkTransform]
  simp only [dif_neg h]

/-- Appending further input to a chunk before running `_chunkTransform`
is the same as running it on the chunk and then running it again on the
leftover with the extra input appended — the algebraic heart of
chunk-boundary independence.  (The final full frame of an exactly-aligned
chunk is retained either way, since the guard is strict.) -/
theorem chunkTransform_append (F : ℕ) (hF : 0 < F) (tm dbt : ℚ)
    (cls : List ℕ → Event) (chunk : List ℕ) (vs : VADState)
    (extra : List ℕ) :
    VADStream.chunkTransform F hF tm dbt cls vs (chunk ++ extra) =
      match VADStream.chunkTransform F hF tm dbt cls vs chunk with
      | (evs, .ok (vs2, l)) =>
        (evs ++ (VADStream.chunkTransform F hF tm dbt cls vs2 (l ++ extra)).1,
          (VADStream.chunkTransform F hF tm dbt cls vs2 (l ++ extra)).2)
      | (evs, .error e) => (evs, .error e) := by
  by_cases h : F < chunk.length
  · have hlen : F < (chunk ++ extra).length := by
      simp only [List.length_append]
      omega
    rw [chunkTransform_pos F hF tm dbt cls vs (chunk ++ extra) hlen,
      chunkTransform_pos F hF tm dbt cls vs chunk h,
      List.take_append_of_le_length (le_of_lt h),
      List.drop_append_of_le_length (le_of_lt h)]
    rcases hpa : VADStream.processAudio tm dbt cls vs (chunk.take F) with e | ⟨ev, vs'⟩
    · rfl
    · have ih := chunkTransform_append F hF tm dbt cls (chunk.drop F) vs' extra
      simp only [ih]
      rcases hrec : VADStream.chunkTransform F hF tm dbt cls vs' (chunk.drop F) with
        ⟨evs1, r1⟩
      rcases r1 with e1 | ⟨vs2, l⟩ <;> simp
  · rw [chunkTransform_neg F hF tm dbt cls vs chunk h]
    simp
termination_by chunk.length
decreasing_by
  simp only [List.length_drop]
  omega

/-- `runStream` on no writes. -/
theorem runStream_nil (F : ℕ) (hF : 0 < F) (tm dbt : ℚ)
    (cls : List ℕ → Event) (st : VADState × List ℕ) :
    runStream F hF tm dbt cls st [] = ([], some st) := rfl

/-- `runStream` on one more write. -/
theorem runStream_cons (F : ℕ) (hF : 0 < F) (tm dbt : ℚ)
    (cls : List ℕ → Event) (st : VADState × List ℕ) (w : List ℕ)
    (ws : List (List ℕ)) :
    runStream F hF tm dbt cls st (w :: ws) =
      match VADStream.transform F hF tm dbt cls st w with
      | (evs, .ok st') =>
        (evs ++ (runStream F hF tm dbt cls st' ws).1,
          (runStream F hF tm dbt cls st' ws).2)
      | (evs, .error _) => (evs, none) := rfl

/-- Merging the first two writes of a run into one write changes nothing:
the leftover of the first write is prepended to the second write either
way, and an error raised during the first write's bytes stops the run at
the same frame with the same pushed events. -/
theorem runStream_merge (F : ℕ) (hF : 0 < F) (tm dbt : ℚ)
    (cls : List ℕ → Event) (st : VADState × List ℕ) (w1 w2 : List ℕ)
    (ws : List (List ℕ)) :
    runStream F hF tm dbt cls st (w1 :: w2 :: ws) =
      runStream F hF tm dbt cls st ((w1 ++ w2) :: ws) := by
  simp only [runStream_cons, VADStream.transform, ← List.append_assoc,
    chunkTransform_append F hF tm dbt cls (st.2 ++ w1) st.1 w2]
  rcases h1 : VADStream.chunkTransform F hF tm dbt cls st.1 (st.2 ++ w1) with
    ⟨evs, r⟩
  rcases r with e | ⟨vs2, l⟩
  · simp
  · rcases h2 : VADStream.chunkTransform F hF tm dbt cls vs2 (l ++ w2) with
      ⟨evs2, r2⟩
    rcases r2 with e2 | st2 <;> simp [h2, List.append_assoc]

/-- Every run equals the run with all of its input delivered in a single
write. -/
theorem runStream_flatten (F : ℕ) (hF : 0 < F) (tm dbt : ℚ)
    (cls : List ℕ → Event) (st : VADState × List ℕ) (w : List ℕ) :
    ∀ ws : List (List ℕ),
      runStream F hF tm dbt cls st (w :: ws) =
        runStream F hF tm dbt cls st [w ++ ws.flatten]
  | [] => by simp
  | w2 :: ws => by
    rw [runStream_merge, runStream_flatten F hF tm dbt cls st (w ++ w2) ws]
    simp [List.append_assoc]

/-- Claim C4: chunk-boundary independence.  For any two partitions of the
same byte sequence into writes, a stream with a deterministic classifier
pushes identical ordered FrameEvent sequences (time, audioData and all
speech fields are part of `FrameEvent` equality). -/
theorem c4_chunk_boundary_independence (F : ℕ) (hF : 0 < F) (tm dbt : ℚ)
    (cls : List ℕ → Event) (ws1 ws2 : List (List ℕ))
    (h : ws1.flatten = ws2.flatten) :
    (runStream F hF tm dbt cls initialStream ws1).1 =
      (runStream F hF tm dbt cls initialStream ws2).1 := by
  have hone : ∀ ws : List (List ℕ),
      runStream F hF tm dbt cls initialStream ws =
        runStream F hF tm dbt cls initialStream [ws.flatten] := by
    intro ws
    cases ws with
    | nil =>
      simp [runStream_nil, runStream_cons, VADStream.transform,
        initialStream, chunkTransform_neg F hF tm dbt cls _ [] (by simp)]
    | cons w ws => exact runStream_flatten F hF tm dbt cls initialStream w ws
  rw [hone ws1, hone ws2, h]

/-- Witness for `c4_chunk_boundary_independence`: the bytes `[1, 2, 3]`
delivered as one write and as two writes. -/
theorem c4_chunk_boundary_independence_witness :
    ([[1, 2, 3]] : List (List ℕ)).flatten =
        ([[1], [2, 3]] : List (List ℕ)).flatten ∧
    (runStream 2 (by decide) 1 0 (fun _ => Event.SILENCE) initialStream
        [[1, 2, 3]]).1 =
      (runStream 2 (by decide) 1 0 (fun _ => Event.SILENCE) initialStream
        [[1], [2, 3]]).1 :=
  ⟨rfl, c4_chunk_boundary_independence 2 (by decide) 1 0 _ _ _ rfl⟩

/-- Everything a successful `_processAudio` call determines: the pushed
event's `time` and `audioData`, the advanced `byteCount`, the transition
block's outputs, the pushed `state` being the post-transition flag, and
`duration` being computed from the pre-transition `state`/`startTime`. -/
theorem processAudio_spec (tm dbt : ℚ) (cls : List ℕ → Event)
    (vs : VADState) (chunk : List ℕ) (ev : FrameEvent) (vs' : VADState)
    (hpa : VADStream.processAudio tm dbt cls vs chunk = .ok (ev, vs')) :
    ev.time = tm * (vs.byteCount : ℚ) ∧
    ev.audioData = chunk ∧
    vs'.byteCount = vs.byteCount + chunk.length ∧
    (ev.speech.start, ev.speech.endFlag, ev.speech.startTime, vs'.speech) =
      speechTransition dbt vs.speech (tm * (vs.byteCount : ℚ)) (cls chunk) ∧
    ev.speech.state = vs'.speech.state ∧
    ev.speech.duration =
      (if vs.speech.state then tm * (vs.byteCount : ℚ) - vs.speech.startTime
        else 0) := by
  unfold VADStream.processAudio at hpa
  cases hcls : cls chunk <;> rw [hcls] at hpa
  · exact absurd hpa (by simp)
  all_goals (
    simp only [Except.ok.injEq, Prod.mk.injEq] at hpa
    obtain ⟨hev, hvs⟩ := hpa
    subst hev
    subst hvs
    exact ⟨rfl, rfl, rfl, rfl, rfl, rfl⟩ )

/-- One run of `_chunkTransform` neither drops, reorders nor duplicates
bytes: the pushed frames' `audioData`, in push order, followed by the
retained leftover reassemble the processed chunk. -/
theorem chunkTransform_conserves (F : ℕ) (hF : 0 < F) (tm dbt : ℚ)
    (cls : List ℕ → Event) (chunk : List ℕ) (vs : VADState)
    (evs : List FrameEvent) (vs' : VADState) (l : List ℕ)
    (hres : VADStream.chunkTransform F hF tm dbt cls vs chunk =
      (evs, .ok (vs', l))) :
    (evs.map FrameEvent.audioData).flatten ++ l = chunk := by
  by_cases h : F < chunk.length
  · rw [chunkTransform_pos F hF tm dbt cls vs chunk h] at hres
    rcases hpa : VADStream.processAudio tm dbt cls vs (chunk.take F) with
      e | ⟨ev, vs2⟩
    · rw [hpa] at hres
      exact absurd hres (by simp)
    · rw [hpa] at hres
      simp only [Prod.mk.injEq] at hres
      obtain ⟨hevs, hr⟩ := hres
      subst hevs
      have ih := chunkTransform_conserves F hF tm dbt cls (chunk.drop F) vs2
        (VADStream.chunkTransform F hF tm dbt cls vs2 (chunk.drop F)).1 vs' l
        (Prod.ext_iff.mpr ⟨rfl, hr⟩)
      have haud := (processAudio_spec tm dbt cls vs (chunk.take F) ev vs2 hpa).2.1
      rw [List.map_cons, List.flatten_cons, List.append_assoc, ih, haud,
        List.take_append_drop]
  · rw [chunkTransform_neg F hF tm dbt cls vs chunk h] at hres
    simp only [Prod.mk.injEq, Except.ok.injEq] at hres
    obtain ⟨hevs, -, hl⟩ := hres
    subst hevs
    subst hl
    simp
termination_by chunk.length
decreasing_by
  simp only [List.length_drop]
  omega

/-- Byte conservation across a whole run: pushed frames plus the final
buffer reassemble the initial buffer plus everything written. -/
theorem runStream_conserves (F : ℕ) (hF : 0 < F) (tm dbt : ℚ)
    (cls : List ℕ → Event) :
    ∀ (ws : List (List ℕ)) (st : VADState × List ℕ) (evs : List FrameEvent)
      (st' : VADState × List ℕ),
      runStream F hF tm dbt cls st ws = (evs, some st') →
      (evs.map FrameEvent.audioData).flatten ++ st'.2 = st.2 ++ ws.flatten := by
  intro ws
  induction ws with
  | nil =>
    intro st evs st' h
    rw [runStream_nil] at h
    simp only [Prod.mk.injEq, Option.some.injEq] at h
    obtain ⟨rfl, rfl⟩ := h
    simp
  | cons w ws ih =>
    intro st evs st' h
    rw [runStream_cons] at h
    rcases hc : VADStream.transform F hF tm dbt cls st w with ⟨evs1, r⟩
    rw [hc] at h
    rcases r with e | st1
    · exact absurd h (by simp)
    · simp only [Prod.mk.injEq] at h
      obtain ⟨rfl, h2⟩ := h
      have ih2 := ih st1 (runStream F hF tm dbt cls st1 ws).1 st'
        (Prod.ext_iff.mpr ⟨rfl, h2⟩)
      have hcons := chunkTransform_conserves F hF tm dbt cls (st.2 ++ w) st.1
        evs1 st1.1 st1.2 hc
      rw [List.map_append, List.flatten_append, List.append_assoc, ih2,
        ← List.append_assoc, hcons, List.flatten_cons, ← List.append_assoc]

/-- Claim C7: the chunker never drops, reorders or duplicates bytes — for
every write sequence whose run completes (no fatal classification error,
so a final retained leftover exists), the concatenation, in push order,
of the pushed frames' `audioData` followed by the final leftover is
exactly the concatenation of all written bytes. -/
theorem c7_byte_conservation (F : ℕ) (hF : 0 < F) (tm dbt : ℚ)
    (cls : List ℕ → Event) (ws : List (List ℕ)) (evs : List FrameEvent)
    (st' : VADState × List ℕ)
    (hrun : runStream F hF tm dbt cls initialStream ws = (evs, some st')) :
    (evs.map FrameEvent.audioData).flatten ++ st'.2 = ws.flatten := by
  have h := runStream_conserves F hF tm dbt cls ws initialStream evs st' hrun
  simpa [initialStream] using h

/-- A positive frame length used by the concrete example runs. -/
theorem nat_two_pos : (0 : ℕ) < 2 := by decide

/-- Concrete evaluation: one silent frame from the fresh stream state. -/
theorem processAudio_example :
    VADStream.processAudio 1 0 (fun _ => Event.SILENCE)
      ⟨0, ⟨false, 0, 0⟩⟩ [1, 2] =
      .ok (⟨0, [1, 2], ⟨false, false, false, 0, 0⟩⟩, ⟨2, ⟨false, 0, 0⟩⟩) := by
  simp [VADStream.processAudio, speechTransition]

/-- Concrete evaluation: `_chunkTransform` on `[1, 2, 3]` with a frame
length of 2 pushes one frame and retains `[3]`. -/
theorem chunkTransform_example :
    VADStream.chunkTransform 2 nat_two_pos 1 0 (fun _ => Event.SILENCE)
      ⟨0, ⟨false, 0, 0⟩⟩ [1, 2, 3] =
      ([⟨0, [1, 2], ⟨false, false, false, 0, 0⟩⟩],
        .ok (⟨2, ⟨false, 0, 0⟩⟩, [3])) := by
  rw [chunkTransform_pos 2 nat_two_pos 1 0 _ _ _ (by norm_num)]
  norm_num [processAudio_example]
  rw [chunkTransform_neg 2 nat_two_pos 1 0 _ _ _ (by norm_num)]
  exact ⟨rfl, rfl⟩

/-- Concrete evaluation: a whole run on the single write `[1, 2, 3]`. -/
theorem runStream_example :
    runStream 2 nat_two_pos 1 0 (fun _ => Event.SILENCE) initialStream
      [[1, 2, 3]] =
      ([⟨0, [1, 2], ⟨false, false, false, 0, 0⟩⟩],
        some (⟨2, ⟨false, 0, 0⟩⟩, [3])) := by
  rw [runStream_cons]
  have ht : VADStream.transform 2 nat_two_pos 1 0 (fun _ => Event.SILENCE)
      initialStream [1, 2, 3] =
      ([⟨0, [1, 2], ⟨false, false, false, 0, 0⟩⟩],
        .ok (⟨2, ⟨false, 0, 0⟩⟩, [3])) := by
    show VADStream.chunkTransform 2 nat_two_pos 1 0 (fun _ => Event.SILENCE)
      initialStream.1 (initialStream.2 ++ [1, 2, 3]) = _
    simpa [initialStream] using chunkTransform_example
  rw [ht]
  simp [runStream_nil]

/-- Witness for `c7_byte_conservation`: one write of `[1, 2, 3]` with a
frame length of 2 pushes the frame `[1, 2]` and retains `[3]`. -/
theorem c7_byte_conservation_witness :
    (([⟨0, [1, 2], ⟨false, false, false, 0, 0⟩⟩] : List FrameEvent).map
        FrameEvent.audioData).flatten ++ [3] =
      ([[1, 2, 3]] : List (List ℕ)).flatten :=
  c7_byte_conservation 2 nat_two_pos 1 0 (fun _ => Event.SILENCE) [[1, 2, 3]]
    [⟨0, [1, 2], ⟨false, false, false, 0, 0⟩⟩] (⟨2, ⟨false, 0, 0⟩⟩, [3])
    runStream_example

/-- Leftover bounds for a successful `_chunkTransform`: the retained
remainder never exceeds one frame length, it is nonempty whenever the
chunk was, and pushed frames plus leftover account for every byte. -/
theorem chunkTransform_leftover (F : ℕ) (hF : 0 < F) (tm dbt : ℚ)
    (cls : List ℕ → Event) (chunk : List ℕ) (vs : VADState)
    (evs : List FrameEvent) (vs' : VADState) (l : List ℕ)
    (hres : VADStream.chunkTransform F hF tm dbt cls vs chunk =
      (evs, .ok (vs', l))) :
    l.length ≤ F ∧ (chunk ≠ [] → l ≠ []) ∧
      evs.length * F + l.length = chunk.length := by
  by_cases h : F < chunk.length
  · rw [chunkTransform_pos F hF tm dbt cls vs chunk h] at hres
    rcases hpa : VADStream.processAudio tm dbt cls vs (chunk.take F) with
      e | ⟨ev, vs2⟩
    · rw [hpa] at hres
      exact absurd hres (by simp)
    · rw [hpa] at hres
      simp only [Prod.mk.injEq] at hres
      obtain ⟨hevs, hr⟩ := hres
      subst hevs
      obtain ⟨ih1, ih2, ih3⟩ := chunkTransform_leftover F hF tm dbt cls
        (chunk.drop F) vs2
        (VADStream.chunkTransform F hF tm dbt cls vs2 (chunk.drop F)).1 vs' l
        (Prod.ext_iff.mpr ⟨rfl, hr⟩)
    -- `chunk.drop F` is nonempty, so the leftover is too
      have hdrop : (chunk.drop F).length = chunk.length - F := by simp
      refine ⟨ih1, fun _ => ih2 (fun hnil => ?_), ?_⟩
      · rw [hnil] at hdrop
        simp at hdrop
        omega
      · have key : ∀ m ll : ℕ, m + ll = chunk.length - F → m + F + ll =
            chunk.length := by
          intro m ll h1
          omega
        rw [List.length_cons, Nat.succ_mul]
        rw [hdrop] at ih3
        exact key _ _ ih3
  · rw [chunkTransform_neg F hF tm dbt cls vs chunk h] at hres
    simp only [Prod.mk.injEq, Except.ok.injEq] at hres
    obtain ⟨hevs, -, hl⟩ := hres
    subst hevs
    subst hl
    simp
    omega
termination_by chunk.length
decreasing_by
  simp only [List.length_drop]
  omega

/-- Claim C3 (counterexample): one write of exactly FrameLengthBytes
bytes (1920 bytes, one full 60 ms frame at 16 kHz).  Because the slicing
guard is the strict `start + chunkLength < chunk.length`, no frame is
sliced off although a full frame is available: the whole frame is
retained as the leftover, whose length is 1920, not `< 1920` and not
empty — against the claim, the final full frame of an exact nonzero
multiple is not emitted and the leftover is a full frame. -/
theorem c3_counterexample :
    VADStream.transform 1920 (by norm_num) (1 / 32) 1000
        (fun _ => Event.SILENCE) initialStream (List.replicate 1920 0) =
      ([], .ok (initialStream.1, List.replicate 1920 0)) :=
  chunkTransform_neg 1920 (by norm_num) (1 / 32) 1000 _ initialStream.1
    (List.replicate 1920 0) (by simp only [List.length_replicate]; omega)

/-- Claim C3 (amended): after a chunk is processed without a
classification error, a frame of exactly `F` bytes has been sliced off
for as long as strictly more than `F` bytes remained, so the retained
leftover has length at most `F` — with equality, rather than an empty
leftover, exactly when the accumulated bytes are a nonzero multiple of
`F`: the final full frame is retained for the next write, not emitted. -/
theorem c3_leftover_amended (F : ℕ) (hF : 0 < F) (tm dbt : ℚ)
    (cls : List ℕ → Event) (chunk : List ℕ) (vs : VADState)
    (evs : List FrameEvent) (vs' : VADState) (l : List ℕ)
    (hres : VADStream.chunkTransform F hF tm dbt cls vs chunk =
      (evs, .ok (vs', l))) :
    l.length ≤ F ∧ evs.length * F + l.length = chunk.length ∧
      (chunk.length % F = 0 → chunk ≠ [] → l.length = F) := by
  obtain ⟨h1, h2, h3⟩ :=
    chunkTransform_leftover F hF tm dbt cls chunk vs evs vs' l hres
  refine ⟨h1, h3, fun hmod hne => ?_⟩
  have hlpos : 0 < l.length := List.length_pos.mpr (h2 hne)
  have hmod0 : (evs.length * F + l.length) % F = 0 := by
    rw [h3]
    exact hmod
  have hl0 : l.length % F = 0 := by
    rwa [Nat.add_comm, Nat.add_mul_mod_self_right] at hmod0
  exact le_antisymm h1 (Nat.le_of_dvd hlpos (Nat.dvd_of_mod_eq_zero hl0))

/-- Witness for `c3_leftover_amended` on the concrete run of
`chunkTransform_example`. -/
theorem c3_leftover_amended_witness :
    ([3] : List ℕ).length ≤ 2 ∧
      ([(⟨0, [1, 2], ⟨false, false, false, 0, 0⟩⟩ : FrameEvent)]).length * 2 +
          ([3] : List ℕ).length = ([1, 2, 3] : List ℕ).length ∧
      (([1, 2, 3] : List ℕ).length % 2 = 0 → ([1, 2, 3] : List ℕ) ≠ [] →
        ([3] : List ℕ).length = 2) :=
  c3_leftover_amended 2 nat_two_pos 1 0 (fun _ => Event.SILENCE) [1, 2, 3]
    ⟨0, ⟨false, 0, 0⟩⟩ [⟨0, [1, 2], ⟨false, false, false, 0, 0⟩⟩]
    ⟨2, ⟨false, 0, 0⟩⟩ [3] chunkTransform_example

/-- Unfolding the slicer when more than one frame length remains. -/
theorem chunkFrames_pos (F : ℕ) (hF : 0 < F) (chunk : List ℕ)
    (h : F < chunk.length) :
    chunkFrames F hF chunk =
      (chunk.take F :: (chunkFrames F hF (chunk.drop F)).1,
        (chunkFrames F hF (chunk.drop F)).2) := by
  rw [chunkFrames]
  simp only [dif_pos h]

/-- Unfolding the slicer at its last step. -/
theorem chunkFrames_neg (F : ℕ) (hF : 0 < F) (chunk : List ℕ)
    (h : ¬ F < chunk.length) :
    chunkFrames F hF chunk = ([], chunk) := by
  rw [chunkFrames]
  simp only [dif_neg h]

/-- `_chunkTransform` factors into the pure frame slicer followed by
sequential processing of the sliced frames. -/
theorem chunkTransform_factor (F : ℕ) (hF : 0 < F) (tm dbt : ℚ)
    (cls : List ℕ → Event) (chunk : List ℕ) (vs : VADState) :
    VADStream.chunkTransform F hF tm dbt cls vs chunk =
      ((processFrames tm dbt cls vs (chunkFrames F hF chunk).1).1,
        match (processFrames tm dbt cls vs (chunkFrames F hF chunk).1).2 with
        | .ok vs' => .ok (vs', (chunkFrames F hF chunk).2)
        | .error e => .error e) := by
  by_cases h : F < chunk.length
  · rw [chunkTransform_pos F hF tm dbt cls vs chunk h, chunkFrames_pos F hF chunk h]
    rcases hpa : VADStream.processAudio tm dbt cls vs (chunk.take F) with
      e | ⟨ev, vs2⟩
    · simp [processFrames, hpa]
    · have ih := chunkTransform_factor F hF tm dbt cls (chunk.drop F) vs2
      simp [processFrames, hpa, ih]
  · rw [chunkTransform_neg F hF tm dbt cls vs chunk h, chunkFrames_neg F hF chunk h]
    simp [processFrames]
termination_by chunk.length
decreasing_by
  simp only [List.length_drop]
  omega

/-- `processFrames` stops at the first `ERROR` frame: exactly the events
of the earlier frames are pushed — none for the `ERROR` frame or any
later one — and the error propagates. -/
theorem processFrames_first_error (tm dbt : ℚ) (cls : List ℕ → Event) :
    ∀ (fs : List (List ℕ)) (vs : VADState) (j : ℕ) (f : List ℕ),
      fs[j]? = some f → cls f = .ERROR →
      (∀ i g, i < j → fs[i]? = some g → cls g ≠ .ERROR) →
      (processFrames tm dbt cls vs fs).1.length = j ∧
        (processFrames tm dbt cls vs fs).2 = .error () := by
  intro fs
  induction fs with
  | nil =>
    intro vs j f hj herr hbefore
    simp at hj
  | cons f0 fs ih =>
    intro vs j f hj herr hbefore
    cases j with
    | zero =>
      simp only [List.getElem?_cons_zero, Option.some.injEq] at hj
      subst hj
      have hpa : VADStream.processAudio tm dbt cls vs f0 = .error () := by
        unfold VADStream.processAudio
        rw [herr]
      simp [processFrames, hpa]
    | succ j =>
      have h0 : cls f0 ≠ .ERROR := hbefore 0 f0 (Nat.succ_pos j) (by simp)
      rcases hpa : VADStream.processAudio tm dbt cls vs f0 with e | ⟨ev, vs'⟩
      · exfalso
        unfold VADStream.processAudio at hpa
        cases hcls : cls f0 <;> rw [hcls] at hpa
        · exact h0 hcls
        all_goals simp at hpa
      · have hrec := ih vs' j f (by simpa using hj) herr
          (fun i g hi hg =>
            hbefore (i + 1) g (Nat.succ_lt_succ hi) (by simpa using hg))
        simp [processFrames, hpa, hrec.1, hrec.2]

/-- Claim C5: when a frame classifies as `ERROR`, no FrameEvent is
pushed for it — exactly the events of the frames before it were pushed —
processing of the running chunk halts there, the error propagates as the
result of the write, and the destroyed stream processes no later write,
so no FrameEvent is ever pushed afterwards (the failed result also
carries no retained buffer: the remainder is discarded). -/
theorem c5_error_halts (F : ℕ) (hF : 0 < F) (tm dbt : ℚ)
    (cls : List ℕ → Event) (st : VADState × List ℕ) (w : List ℕ)
    (ws : List (List ℕ)) (j : ℕ) (f : List ℕ)
    (hframe : (chunkFrames F hF (st.2 ++ w)).1[j]? = some f)
    (herr : cls f = .ERROR)
    (hbefore : ∀ i g, i < j → (chunkFrames F hF (st.2 ++ w)).1[i]? = some g →
      cls g ≠ .ERROR) :
    (VADStream.transform F hF tm dbt cls st w).1.length = j ∧
      (VADStream.transform F hF tm dbt cls st w).2 = .error () ∧
      runStream F hF tm dbt cls st (w :: ws) =
        ((VADStream.transform F hF tm dbt cls st w).1, none) := by
  obtain ⟨hlen, herr2⟩ := processFrames_first_error tm dbt cls
    (chunkFrames F hF (st.2 ++ w)).1 st.1 j f hframe herr hbefore
  have ht : VADStream.transform F hF tm dbt cls st w =
      ((processFrames tm dbt cls st.1 (chunkFrames F hF (st.2 ++ w)).1).1,
        .error ()) := by
    unfold VADStream.transform
    rw [chunkTransform_factor F hF tm dbt cls (st.2 ++ w) st.1, herr2]
  refine ⟨?_, ?_, ?_⟩
  · rw [ht]
    exact hlen
  · rw [ht]
  · rw [runStream_cons, ht]

/-- Concrete evaluation of the slicer: `[1, 2, 3, 4, 5]` with frame
length 2 yields the frames `[1, 2]`, `[3, 4]` and the remainder `[5]`. -/
theorem chunkFrames_example :
    chunkFrames 2 nat_two_pos [1, 2, 3, 4, 5] = ([[1, 2], [3, 4]], [5]) := by
  simp [chunkFrames]

/-- Witness for `c5_error_halts`: the classifier reports `ERROR` on the
second frame `[3, 4]`; only the first frame's event is pushed and the
follow-up write `[7, 7, 7]` is never processed. -/
theorem c5_error_halts_witness :
    (VADStream.transform 2 nat_two_pos 1 0
        (fun b => if b = [3, 4] then Event.ERROR else Event.SILENCE)
        initialStream [1, 2, 3, 4, 5]).1.length = 1 ∧
      (VADStream.transform 2 nat_two_pos 1 0
        (fun b => if b = [3, 4] then Event.ERROR else Event.SILENCE)
        initialStream [1, 2, 3, 4, 5]).2 = .error () ∧
      runStream 2 nat_two_pos 1 0
        (fun b => if b = [3, 4] then Event.ERROR else Event.SILENCE)
        initialStream [[1, 2, 3, 4, 5], [7, 7, 7]] =
        ((VADStream.transform 2 nat_two_pos 1 0
          (fun b => if b = [3, 4] then Event.ERROR else Event.SILENCE)
          initialStream [1, 2, 3, 4, 5]).1, none) :=
  c5_error_halts 2 nat_two_pos 1 0
    (fun b => if b = [3, 4] then Event.ERROR else Event.SILENCE)
    initialStream [1, 2, 3, 4, 5] [[7, 7, 7]] 1 [3, 4]
    (by simp [initialStream, chunkFrames_example])
    (by decide)
    (by
      intro i g hi hg
      have hi0 : i = 0 := by omega
      subst hi0
      simp [initialStream, chunkFrames_example] at hg
      subst hg
      decide)

/-- Claim C8: on a `start` frame the pushed `startTime` is the freshly
assigned segment start, namely the frame's own `time` (which is also the
new `this.startTime`); on an `end` frame the pushed `startTime` is the
pre-reset segment start, while `this.startTime` is reset to 0. -/
theorem c8_transition_startTime (tm dbt : ℚ) (cls : List ℕ → Event)
    (vs : VADState) (chunk : List ℕ) (ev : FrameEvent) (vs' : VADState)
    (hpa : VADStream.processAudio tm dbt cls vs chunk = .ok (ev, vs')) :
    (ev.speech.start = true →
        ev.speech.startTime = ev.time ∧ vs'.speech.startTime = ev.time) ∧
    (ev.speech.endFlag = true →
        ev.speech.startTime = vs.speech.startTime ∧
          vs'.speech.startTime = 0) := by
  obtain ⟨htime, -, -, htrans, -, -⟩ :=
    processAudio_spec tm dbt cls vs chunk ev vs' hpa
  rw [htime]
  unfold speechTransition at htrans
  split_ifs at htrans with h1 h2 h3
  all_goals (
    simp only [Prod.mk.injEq] at htrans
    obtain ⟨ha, hb, hc, hd⟩ := htrans
    simp [ha, hb, hc, hd] )

/-- Claim C1 (amended): `duration` is computed from the pre-transition
speaking flag and pre-transition `startTime`.  Whenever the pushed
`state` is true this still equals `time - startTime` for the pushed
`startTime`; when the pushed `state` is false and `end` is false the
duration is 0; but on an `end` frame (pushed `state` false) the duration
is `time` minus the pre-transition segment start, not 0. -/
theorem c1_duration_amended (tm dbt : ℚ) (cls : List ℕ → Event)
    (vs : VADState) (chunk : List ℕ) (ev : FrameEvent) (vs' : VADState)
    (hpa : VADStream.processAudio tm dbt cls vs chunk = .ok (ev, vs')) :
    (ev.speech.state = true →
        ev.speech.duration = ev.time - ev.speech.startTime) ∧
    (ev.speech.state = false → ev.speech.endFlag = false →
        ev.speech.duration = 0) ∧
    (ev.speech.endFlag = true →
        ev.speech.duration = ev.time - vs.speech.startTime) := by
  obtain ⟨htime, -, -, htrans, hstate, hdur⟩ :=
    processAudio_spec tm dbt cls vs chunk ev vs' hpa
  rw [htime, hdur, hstate]
  unfold speechTransition at htrans
  split_ifs at htrans with h1 h2 h3
  all_goals (
    simp only [Prod.mk.injEq] at htrans
    obtain ⟨ha, hb, hc, hd⟩ := htrans)
  · simp [ha, hb, hc, hd, h2]
  · simp [ha, hb, hc, hd, h2]
  · simp [ha, hb, hc, hd, h3.1]
  · refine ⟨fun h => ?_, fun h _ => ?_, fun h => ?_⟩
    · rw [hd] at h
      simp [hc, h]
    · rw [hd] at h
      simp [h]
    · rw [hb] at h
      exact absurd h (by simp)

/-- Claim C10: the pushed `startTime` is deterministic also on
non-transition frames: on a mid-segment frame (`state` true, `start`
false) it is the segment start carried in the stream state, and on a
quiet frame (`state` false, `end` false) it is 0 — using the reachable
invariant that a non-speaking stream state carries `startTime = 0`,
which the transition preserves. -/
theorem c10_startTime_deterministic (tm dbt : ℚ) (cls : List ℕ → Event)
    (vs : VADState) (chunk : List ℕ) (ev : FrameEvent) (vs' : VADState)
    (hpa : VADStream.processAudio tm dbt cls vs chunk = .ok (ev, vs'))
    (hinv : vs.speech.state = false → vs.speech.startTime = 0) :
    (ev.speech.state = true → ev.speech.start = false →
        ev.speech.startTime = vs.speech.startTime) ∧
    (ev.speech.state = false → ev.speech.endFlag = false →
        ev.speech.startTime = 0) ∧
    (vs'.speech.state = false → vs'.speech.startTime = 0) := by
  obtain ⟨-, -, -, htrans, hstate, -⟩ :=
    processAudio_spec tm dbt cls vs chunk ev vs' hpa
  rw [hstate]
  unfold speechTransition at htrans
  split_ifs at htrans with h1 h2 h3
  all_goals (
    simp only [Prod.mk.injEq] at htrans
    obtain ⟨ha, hb, hc, hd⟩ := htrans)
  · simp [ha, hb, hc, hd, h2]
  · simp [ha, hb, hc, hd]
  · simp [ha, hb, hc, hd]
  · refine ⟨fun _ _ => hc, fun h _ => ?_, fun h => ?_⟩
    · rw [hd] at h
      rw [hc]
      exact hinv h
    · rw [hd] at h
      rw [hd]
      exact hinv h

/-- Concrete evaluation: a `VOICE` frame from the fresh state opens a
segment (`start = true`, pushed `startTime = time = 0`). -/
theorem processAudio_start_example :
    VADStream.processAudio 1 0
      (fun b => if b = [1, 1] then Event.VOICE else Event.SILENCE)
      ⟨0, ⟨false, 0, 0⟩⟩ [1, 1] =
      .ok (⟨0, [1, 1], ⟨true, true, false, 0, 0⟩⟩, ⟨2, ⟨true, 0, 0⟩⟩) := by
  simp [VADStream.processAudio, speechTransition]

/-- Concrete evaluation: with `debounceTime = 0`, a silent frame at
`time = 2` inside an open segment closes it — the pushed event has
`state = false`, `end = true`, and `duration = 2 - 0 = 2`, computed from
the pre-transition state. -/
theorem processAudio_end_example :
    VADStream.processAudio 1 0
      (fun b => if b = [1, 1] then Event.VOICE else Event.SILENCE)
      ⟨2, ⟨true, 0, 0⟩⟩ [2, 2] =
      .ok (⟨2, [2, 2], ⟨false, false, true, 0, 2⟩⟩, ⟨4, ⟨false, 0, 0⟩⟩) := by
  simp [VADStream.processAudio, speechTransition]

/-- Concrete evaluation: the chunk `[1, 1, 2, 2, 9]` yields a `start`
frame followed by an `end` frame, with `[9]` retained. -/
theorem chunkTransform_end_example :
    VADStream.chunkTransform 2 nat_two_pos 1 0
      (fun b => if b = [1, 1] then Event.VOICE else Event.SILENCE)
      ⟨0, ⟨false, 0, 0⟩⟩ [1, 1, 2, 2, 9] =
      ([⟨0, [1, 1], ⟨true, true, false, 0, 0⟩⟩,
        ⟨2, [2, 2], ⟨false, false, true, 0, 2⟩⟩],
        .ok (⟨4, ⟨false, 0, 0⟩⟩, [9])) := by
  rw [chunkTransform_pos 2 nat_two_pos 1 0 _ _ _ (by norm_num)]
  norm_num [processAudio_start_example]
  rw [chunkTransform_pos 2 nat_two_pos 1 0 _ _ _ (by norm_num)]
  norm_num [processAudio_end_example]
  rw [chunkTransform_neg 2 nat_two_pos 1 0 _ _ _ (by norm_num)]
  exact ⟨rfl, rfl⟩

/-- Claim C1 (counterexample): in the run on `[1, 1, 2, 2, 9]` (frame 1
voiced, frame 2 silent, `debounceTime = 0`), the second pushed
FrameEvent has `speech.state = false` and `end = true` but
`duration = 2 ≠ 0` — against the claim that `duration = 0` whenever the
pushed `state` is false, and in particular on an `end` frame. -/
theorem c1_counterexample :
    (runStream 2 nat_two_pos 1 0
        (fun b => if b = [1, 1] then Event.VOICE else Event.SILENCE)
        initialStream [[1, 1, 2, 2, 9]]).1 =
      [⟨0, [1, 1], ⟨true, true, false, 0, 0⟩⟩,
        ⟨2, [2, 2], ⟨false, false, true, 0, 2⟩⟩] ∧ (2 : ℚ) ≠ 0 := by
  constructor
  · rw [runStream_cons]
    have ht : VADStream.transform 2 nat_two_pos 1 0
        (fun b => if b = [1, 1] then Event.VOICE else Event.SILENCE)
        initialStream [1, 1, 2, 2, 9] =
        ([⟨0, [1, 1], ⟨true, true, false, 0, 0⟩⟩,
          ⟨2, [2, 2], ⟨false, false, true, 0, 2⟩⟩],
          .ok (⟨4, ⟨false, 0, 0⟩⟩, [9])) := by
      show VADStream.chunkTransform 2 nat_two_pos 1 0
        (fun b => if b = [1, 1] then Event.VOICE else Event.SILENCE)
        initialStream.1 (initialStream.2 ++ [1, 1, 2, 2, 9]) = _
      simpa [initialStream] using chunkTransform_end_example
    rw [ht]
    simp [runStream_nil]
  · norm_num

/-- Witness for `c1_duration_amended` on the concrete silent frame of
`processAudio_example`. -/
theorem c1_duration_amended_witness :
    ((⟨0, [1, 2], ⟨false, false, false, 0, 0⟩⟩ : FrameEvent).speech.state =
          true →
        (⟨0, [1, 2], ⟨false, false, false, 0, 0⟩⟩ : FrameEvent).speech.duration =
          (⟨0, [1, 2], ⟨false, false, false, 0, 0⟩⟩ : FrameEvent).time -
            (⟨0, [1, 2], ⟨false, false, false, 0, 0⟩⟩ :
              FrameEvent).speech.startTime) ∧
    ((⟨0, [1, 2], ⟨false, false, false, 0, 0⟩⟩ : FrameEvent).speech.state =
          false →
        (⟨0, [1, 2], ⟨false, false, false, 0, 0⟩⟩ : FrameEvent).speech.endFlag =
          false →
        (⟨0, [1, 2], ⟨false, false, false, 0, 0⟩⟩ : FrameEvent).speech.duration =
          0) ∧
    ((⟨0, [1, 2], ⟨false, false, false, 0, 0⟩⟩ : FrameEvent).speech.endFlag =
          true →
        (⟨0, [1, 2], ⟨false, false, false, 0, 0⟩⟩ : FrameEvent).speech.duration =
          (⟨0, [1, 2], ⟨false, false, false, 0, 0⟩⟩ : FrameEvent).time -
            (⟨0, ⟨false, 0, 0⟩⟩ : VADState).speech.startTime) :=
  c1_duration_amended 1 0 (fun _ => Event.SILENCE) ⟨0, ⟨false, 0, 0⟩⟩ [1, 2]
    _ _ processAudio_example

/-- Witness for `c8_transition_startTime` on the concrete segment-opening
frame of `processAudio_start_example`. -/
theorem c8_transition_startTime_witness :
    ((⟨0, [1, 1], ⟨true, true, false, 0, 0⟩⟩ : FrameEvent).speech.start =
          true →
        (⟨0, [1, 1], ⟨true, true, false, 0, 0⟩⟩ : FrameEvent).speech.startTime =
            (⟨0, [1, 1], ⟨true, true, false, 0, 0⟩⟩ : FrameEvent).time ∧
          (⟨2, ⟨true, 0, 0⟩⟩ : VADState).speech.startTime =
            (⟨0, [1, 1], ⟨true, true, false, 0, 0⟩⟩ : FrameEvent).time) ∧
    ((⟨0, [1, 1], ⟨true, true, false, 0, 0⟩⟩ : FrameEvent).speech.endFlag =
          true →
        (⟨0, [1, 1], ⟨true, true, false, 0, 0⟩⟩ : FrameEvent).speech.startTime =
            (⟨0, ⟨false, 0, 0⟩⟩ : VADState).speech.startTime ∧
          (⟨2, ⟨true, 0, 0⟩⟩ : VADState).speech.startTime = 0) :=
  c8_transition_startTime 1 0
    (fun b => if b = [1, 1] then Event.VOICE else Event.SILENCE)
    ⟨0, ⟨false, 0, 0⟩⟩ [1, 1] _ _ processAudio_start_example

/-- Witness for `c10_startTime_deterministic` on the concrete silent
frame of `processAudio_example`. -/
theorem c10_startTime_deterministic_witness :
    ((⟨0, [1, 2], ⟨false, false, false, 0, 0⟩⟩ : FrameEvent).speech.state =
          true →
        (⟨0, [1, 2], ⟨false, false, false, 0, 0⟩⟩ : FrameEvent).speech.start =
          false →
        (⟨0, [1, 2], ⟨false, false, false, 0, 0⟩⟩ :
            FrameEvent).speech.startTime =
          (⟨0, ⟨false, 0, 0⟩⟩ : VADState).speech.startTime) ∧
    ((⟨0, [1, 2], ⟨false, false, false, 0, 0⟩⟩ : FrameEvent).speech.state =
          false →
        (⟨0, [1, 2], ⟨false, false, false, 0, 0⟩⟩ : FrameEvent).speech.endFlag =
          false →
        (⟨0, [1, 2], ⟨false, false, false, 0, 0⟩⟩ :
          FrameEvent).speech.startTime = 0) ∧
    ((⟨2, ⟨false, 0, 0⟩⟩ : VADState).speech.state = false →
        (⟨2, ⟨false, 0, 0⟩⟩ : VADState).speech.startTime = 0) :=
  c10_startTime_deterministic 1 0 (fun _ => Event.SILENCE) ⟨0, ⟨false, 0, 0⟩⟩
    [1, 2] _ _ processAudio_example (fun _ => rfl)
